import Mathlib

/-!
Formal model of the TWAP script (`script.py`).

The script's core function `get_twap_last_5_business_days` pages through an
exchange OHLCV API, filters the fetched candles to a calendar-date window and
returns the mean typical price together with the filtered series.

The embedding is shallow:
* a candle is a record of its millisecond timestamp (an integer) and its
  open/high/low/close/volume prices as rationals;
* the exchange API (`exchange.fetch_ohlcv` at a fixed symbol, timeframe and
  limit) is a function from the requested `since` cursor to the returned page;
* the `while True` pagination loop is a fuel-indexed recursion returning
  `none` when the fuel runs out, so a proved `some` result certifies
  termination within that many pages;
* the second model `fetchLoopE`/`get_twapE` lets a page request fail with an
  error code, modelling an exception raised by the underlying client, and
  hands it through exactly like Python exception propagation does;
* the absent result `(None, None)` is the inner `none`; a produced result is
  the TWAP value paired with the rows of the returned frame, each row being
  the original candle together with its added `typical_price` column.
-/

/-- One OHLCV bar, as returned by the API: fixed-order tuple
`(timestamp_ms, open, high, low, close, volume)`. -/
structure Candle where
  timestamp : Int
  open_ : ℚ
  high : ℚ
  low : ℚ
  close : ℚ
  volume : ℚ
  deriving DecidableEq

/-- Strict time order between candles. -/
abbrev tsLt (a b : Candle) : Prop := a.timestamp < b.timestamp

/-- Milliseconds per day: `timedelta(days=1)` and the unit used by
`pd.to_datetime(·, unit="ms")`. -/
def msPerDay : Int := 86400000

/-- The pagination lower bound `since = int(start_time.timestamp() * 1000)`
with `start_time = end_time - timedelta(days=days_to_fetch)`. -/
def sinceOf (now_ms : Int) (days_to_fetch : Nat) : Int :=
  now_ms - days_to_fetch * msPerDay

/-- `datetime.datetime.utcnow().date()` as days since the epoch: the floor
of the current millisecond clock over a day's milliseconds. -/
def todayOf (now_ms : Int) : Int := Int.fdiv now_ms msPerDay

/-- The filter cutoff `today - pd.tseries.offsets.Day(days_to_fetch)`:
today's date minus `days_to_fetch` calendar days. -/
def cutoffOf (now_ms : Int) (days_to_fetch : Nat) : Int :=
  todayOf now_ms - days_to_fetch

/-- `df["timestamp"].dt.date` for one row: the candle's calendar date as
days since the epoch, the floor of its millisecond timestamp over a day's
milliseconds. -/
def candleDate (c : Candle) : Int := Int.fdiv c.timestamp msPerDay

/-- `(df["high"] + df["low"] + df["close"]) / 3` for one row. -/
def typical_price (c : Candle) : ℚ := (c.high + c.low + c.close) / 3

/-- `df["typical_price"].mean()`: the sum of typical prices over the length
of the series. -/
def twapOf (l : List Candle) : ℚ :=
  (l.map typical_price).sum / (l.length : ℚ)

/-- `df[df["timestamp"].dt.date >= five_business_days_ago.date()]`: keep
exactly the candles whose calendar date is at least the cutoff. -/
def filterWindow (now_ms : Int) (days_to_fetch : Nat) (l : List Candle) :
    List Candle :=
  l.filter (fun c => decide (cutoffOf now_ms days_to_fetch ≤ candleDate c))

/-- `batch[-1][0]`: the timestamp of the last candle of the non-empty page
`c :: cs`. -/
def lastTs (c : Candle) (cs : List Candle) : Int := (cs.getLastD c).timestamp

/-- The `while True` pagination loop of `get_twap_last_5_business_days`,
indexed by fuel. `api since` is the page returned by
`exchange.fetch_ohlcv(symbol, timeframe, since=since, limit=limit)`.
An empty page breaks out with the candles gathered so far; otherwise the
page is appended, the cursor becomes `last_timestamp + 1`, and the loop
breaks when `last_timestamp > now_ms`. `none` means the fuel ran out before
the loop broke. -/
def fetchLoop (api : Int → List Candle) (now_ms : Int) :
    Int → Nat → Option (List Candle)
  | _, 0 => none
  | since, fuel + 1 =>
    match api since with
    | [] => some []
    | c :: cs =>
      if now_ms < lastTs c cs then some (c :: cs)
      else
        match fetchLoop api now_ms (lastTs c cs + 1) fuel with
        | none => none
        | some rest => some (c :: cs ++ rest)

/-- The code after the loop: build the frame, filter it to the window,
return `(None, None)` if it is empty, otherwise the mean typical price and
the rows with their added `typical_price` column. -/
def assemble (now_ms : Int) (days_to_fetch : Nat) (ohlcv : List Candle) :
    Option (ℚ × List (Candle × ℚ)) :=
  if filterWindow now_ms days_to_fetch ohlcv = [] then none
  else
    some (twapOf (filterWindow now_ms days_to_fetch ohlcv),
      (filterWindow now_ms days_to_fetch ohlcv).map
        (fun c => (c, typical_price c)))

/-- `get_twap_last_5_business_days`, with the clock reading and the API
passed explicitly. Returns `none` when the loop fuel runs out,
`some none` for the `(None, None)` no-data outcome, and otherwise
`some (some (twap, rows))`. -/
def get_twap_last_5_business_days (api : Int → List Candle) (now_ms : Int)
    (days_to_fetch : Nat) (fuel : Nat) :
    Option (Option (ℚ × List (Candle × ℚ))) :=
  (fetchLoop api now_ms (sinceOf now_ms days_to_fetch) fuel).map
    (assemble now_ms days_to_fetch)

/-- The pagination loop with a fallible API: `api since` either raises
(`Except.error`, with an error code standing for the Python exception) or
returns a page. A raised error aborts the loop at once and is handed
through unchanged, exactly as a Python exception propagates out of
`exchange.fetch_ohlcv`. -/
def fetchLoopE (api : Int → Except Nat (List Candle)) (now_ms : Int) :
    Int → Nat → Option (Except Nat (List Candle))
  | _, 0 => none
  | since, fuel + 1 =>
    match api since with
    | .error e => some (.error e)
    | .ok [] => some (.ok [])
    | .ok (c :: cs) =>
      if now_ms < lastTs c cs then some (.ok (c :: cs))
      else
        match fetchLoopE api now_ms (lastTs c cs + 1) fuel with
        | none => none
        | some (.error e) => some (.error e)
        | some (.ok rest) => some (.ok (c :: cs ++ rest))

/-- `get_twap_last_5_business_days` built on the fallible API model: there
is no `try`/`except` in the source, so an error from any page request is
the result of the whole call and no candle series is produced. -/
def get_twapE (api : Int → Except Nat (List Candle)) (now_ms : Int)
    (days_to_fetch : Nat) (fuel : Nat) :
    Option (Except Nat (Option (ℚ × List (Candle × ℚ)))) :=
  (fetchLoopE api now_ms (sinceOf now_ms days_to_fetch) fuel).map
    (fun r => r.map (assemble now_ms days_to_fetch))

/-! ### Concrete runs used by witnesses and counterexamples -/

/-- Concrete candle on day 7 (UTC) with typical price 10. -/
def c7 : Candle := ⟨604800000, 10, 10, 10, 10, 0⟩

/-- Concrete candle on day 8 (UTC) with typical price 20. -/
def c8 : Candle := ⟨691200000, 20, 20, 20, 20, 0⟩

/-- Concrete candle on day 9 (UTC) with typical price 30. -/
def c9 : Candle := ⟨777600000, 30, 30, 30, 30, 0⟩

/-- Concrete API: one page of three daily candles at the initial cursor of a
3-day window ending at day 10, nothing afterwards. -/
def apiThree : Int → List Candle :=
  fun s => if s = 604800000 then [c7, c8, c9] else []

/-- A syntactically separate copy of `apiThree`, used to witness that two
runs over pointwise-equal response sequences agree. -/
def apiThreeCopy : Int → List Candle :=
  fun s => if s = 604800000 then [c7, c8, c9] else []

/-- Concrete candle on day 0, far older than any cutoff used here. -/
def cOld : Candle := ⟨0, 1, 2, 3, 4, 5⟩

/-- Concrete API whose only data is one stale candle on day 0. -/
def apiOld : Int → List Candle :=
  fun s => if s = 604800000 then [cOld] else []

/-- Concrete fallible API that raises error code 42 on the first page of a
3-day window ending at day 10. -/
def apiErr : Int → Except Nat (List Candle) :=
  fun s => if s = 604800000 then Except.error 42 else Except.ok []

/-- Concrete candle at day 5, 00:00 UTC, typical price 1. -/
def cA : Candle := ⟨432000000, 1, 1, 1, 1, 0⟩

/-- Concrete candle timestamped 1 ms after day-10 midnight, typical price 4:
one millisecond later than the clock reading `864000000` used with it. -/
def cB : Candle := ⟨864000001, 4, 4, 4, 4, 0⟩

/-- Concrete API returning, at the initial cursor of a 5-day window ending
at day 10, a page whose last candle lies past the clock reading. -/
def apiC7 : Int → List Candle :=
  fun s => if s = 432000000 then [cA, cB] else []

theorem apiThree_loop : fetchLoop apiThree 864000000 (sinceOf 864000000 3) 5 =
    some [c7, c8, c9] := by decide

theorem apiThree_filter : filterWindow 864000000 3 [c7, c8, c9] =
    [c7, c8, c9] := by decide

theorem apiThree_run : get_twap_last_5_business_days apiThree 864000000 3 5 =
    some (some (20, [(c7, 10), (c8, 20), (c9, 30)])) := by
  simp only [get_twap_last_5_business_days, apiThree_loop, Option.map_some',
    assemble, apiThree_filter]
  rw [if_neg (by decide)]
  norm_num [twapOf, typical_price, c7, c8, c9]

theorem apiThree_mono : ∀ s : Int, ∀ c ∈ apiThree s, s ≤ c.timestamp := by
  intro s c hc
  unfold apiThree at hc
  by_cases hs : s = 604800000
  · rw [if_pos hs] at hc
    subst hs
    simp only [List.mem_cons, List.not_mem_nil, or_false] at hc
    rcases hc with rfl | rfl | rfl <;> decide
  · rw [if_neg hs] at hc
    simp at hc

theorem apiThree_asc : ∀ s : Int, (apiThree s).Pairwise tsLt := by
  intro s
  unfold apiThree
  by_cases hs : s = 604800000
  · rw [if_pos hs]; decide
  · rw [if_neg hs]; exact List.Pairwise.nil

/-! ### Structural lemmas about the pagination loop -/

theorem mem_ts_le_lastTs :
    ∀ (cs : List Candle) (c a : Candle), (c :: cs).Pairwise tsLt →
      a ∈ c :: cs → a.timestamp ≤ lastTs c cs := by
  intro cs
  induction cs with
  | nil =>
    intro c a _ ha
    rw [List.mem_singleton] at ha
    simp [ha, lastTs, List.getLastD_nil]
  | cons b bs ih =>
    intro c a hp ha
    have hp2 : (b :: bs).Pairwise tsLt := (List.pairwise_cons.mp hp).2
    have hlast : lastTs c (b :: bs) = lastTs b bs := by
      unfold lastTs
      rw [List.getLastD_cons]
    rw [hlast]
    rcases List.mem_cons.mp ha with rfl | ha2
    · have hcb : tsLt a b := (List.pairwise_cons.mp hp).1 b (by simp)
      have hb := ih b b hp2 (by simp)
      exact le_trans (le_of_lt hcb) hb
    · exact ih b a hp2 ha2

theorem fetchLoop_sound (api : Int → List Candle) (now_ms : Int)
    (Hmono : ∀ s : Int, ∀ c ∈ api s, s ≤ c.timestamp)
    (Hasc : ∀ s : Int, (api s).Pairwise tsLt) :
    ∀ (fuel : Nat) (since : Int) (l : List Candle),
      fetchLoop api now_ms since fuel = some l →
      (∀ c ∈ l, since ≤ c.timestamp) ∧ l.Pairwise tsLt := by
  intro fuel
  induction fuel with
  | zero => intro since l h; simp [fetchLoop] at h
  | succ n ih =>
    intro since l h
    rw [fetchLoop] at h
    cases hapi : api since with
    | nil =>
      rw [hapi] at h
      simp only [Option.some.injEq] at h
      subst h
      exact ⟨by simp, List.Pairwise.nil⟩
    | cons c cs =>
      rw [hapi] at h
      dsimp only at h
      have hbatch_ge : ∀ x ∈ c :: cs, since ≤ x.timestamp :=
        fun x hx => Hmono since x (hapi ▸ hx)
      have hbatch_pw : (c :: cs).Pairwise tsLt := hapi ▸ Hasc since
      by_cases hlt : now_ms < lastTs c cs
      · rw [if_pos hlt] at h
        simp only [Option.some.injEq] at h
        subst h
        exact ⟨hbatch_ge, hbatch_pw⟩
      · rw [if_neg hlt] at h
        cases hrec : fetchLoop api now_ms (lastTs c cs + 1) n with
        | none => rw [hrec] at h; simp at h
        | some rest =>
          rw [hrec] at h
          simp only [Option.some.injEq] at h
          subst h
          obtain ⟨hrest_ge, hrest_pw⟩ := ih (lastTs c cs + 1) rest hrec
          have hsince_last : since ≤ lastTs c cs :=
            hbatch_ge _ (List.getLastD_mem_cons cs c)
          constructor
          · intro x hx
            rcases List.mem_append.mp hx with hx1 | hx2
            · exact hbatch_ge x hx1
            · have := hrest_ge x hx2
              omega
          · refine List.pairwise_append.mpr ⟨hbatch_pw, hrest_pw, ?_⟩
            intro a ha b hb
            have h1 : a.timestamp ≤ lastTs c cs :=
              mem_ts_le_lastTs cs c a hbatch_pw ha
            have h2 : lastTs c cs + 1 ≤ b.timestamp := hrest_ge b hb
            show a.timestamp < b.timestamp
            omega

theorem fetchLoop_total (api : Int → List Candle) (now_ms : Int)
    (Hmono : ∀ s : Int, ∀ c ∈ api s, s ≤ c.timestamp) :
    ∀ (fuel : Nat) (since : Int), (now_ms + 2 - since).toNat < fuel →
      (fetchLoop api now_ms since fuel).isSome := by
  intro fuel
  induction fuel with
  | zero => intro since h; exact absurd h (Nat.not_lt_zero _)
  | succ n ih =>
    intro since hfuel
    rw [fetchLoop]
    cases hapi : api since with
    | nil => simp
    | cons c cs =>
      dsimp only
      by_cases hlt : now_ms < lastTs c cs
      · rw [if_pos hlt]; simp
      · rw [if_neg hlt]
        have hsl : since ≤ lastTs c cs :=
          Hmono since _ (hapi ▸ List.getLastD_mem_cons cs c)
        have hlt2 : lastTs c cs ≤ now_ms := not_lt.mp hlt
        have hrec := ih (lastTs c cs + 1) (by omega)
        cases hr : fetchLoop api now_ms (lastTs c cs + 1) n with
        | none => rw [hr] at hrec; simp at hrec
        | some rest => simp

theorem get_twap_some (api : Int → List Candle) (now_ms : Int)
    (d fuel : Nat) (t : ℚ) (rows : List (Candle × ℚ))
    (h : get_twap_last_5_business_days api now_ms d fuel =
      some (some (t, rows))) :
    ∃ ohlcv, fetchLoop api now_ms (sinceOf now_ms d) fuel = some ohlcv ∧
      filterWindow now_ms d ohlcv ≠ [] ∧
      t = twapOf (filterWindow now_ms d ohlcv) ∧
      rows = (filterWindow now_ms d ohlcv).map
        (fun c => (c, typical_price c)) := by
  unfold get_twap_last_5_business_days at h
  cases hfl : fetchLoop api now_ms (sinceOf now_ms d) fuel with
  | none => rw [hfl] at h; simp at h
  | some ohlcv =>
    rw [hfl] at h
    rw [Option.map_some'] at h
    simp only [Option.some.injEq] at h
    refine ⟨ohlcv, rfl, ?_⟩
    unfold assemble at h
    by_cases hdf : filterWindow now_ms d ohlcv = []
    · rw [if_pos hdf] at h; simp at h
    · rw [if_neg hdf] at h
      simp only [Option.some.injEq, Prod.mk.injEq] at h
      exact ⟨hdf, h.1.symm, h.2.symm⟩

theorem get_twap_empty (api : Int → List Candle) (now_ms : Int)
    (d fuel : Nat) (ohlcv : List Candle)
    (hfl : fetchLoop api now_ms (sinceOf now_ms d) fuel = some ohlcv)
    (hdf : filterWindow now_ms d ohlcv = []) :
    get_twap_last_5_business_days api now_ms d fuel = some none := by
  unfold get_twap_last_5_business_days
  rw [hfl, Option.map_some']
  unfold assemble
  rw [if_pos hdf]

theorem fetchLoopE_error_api (api : Int → Except Nat (List Candle))
    (now_ms : Int) :
    ∀ (fuel : Nat) (since : Int) (e : Nat),
      fetchLoopE api now_ms since fuel = some (Except.error e) →
      ∃ s, api s = Except.error e := by
  intro fuel
  induction fuel with
  | zero => intro since e h; simp [fetchLoopE] at h
  | succ n ih =>
    intro since e h
    rw [fetchLoopE] at h
    cases hapi : api since with
    | error e2 =>
      rw [hapi] at h
      dsimp only at h
      simp only [Option.some.injEq, Except.error.injEq] at h
      exact ⟨since, by rw [hapi, h]⟩
    | ok batch =>
      rw [hapi] at h
      cases batch with
      | nil => simp at h
      | cons c cs =>
        dsimp only at h
        by_cases hlt : now_ms < lastTs c cs
        · rw [if_pos hlt] at h; simp at h
        · rw [if_neg hlt] at h
          cases hr : fetchLoopE api now_ms (lastTs c cs + 1) n with
          | none => rw [hr] at h; simp at h
          | some r =>
            rw [hr] at h
            cases r with
            | error e2 =>
              dsimp only at h
              simp only [Option.some.injEq, Except.error.injEq] at h
              exact ih (lastTs c cs + 1) e (h ▸ hr)
            | ok rest => simp at h

theorem apiOld_loop : fetchLoop apiOld 864000000 (sinceOf 864000000 3) 5 =
    some [cOld] := by decide

theorem apiOld_filter : filterWindow 864000000 3 [cOld] = [] := by decide

theorem apiErr_first : apiErr (sinceOf 864000000 3) = Except.error 42 := rfl

theorem apiC7_loop : fetchLoop apiC7 864000000 (sinceOf 864000000 5) 5 =
    some [cA, cB] := by decide

theorem apiC7_filter : filterWindow 864000000 5 [cA, cB] = [cA, cB] := by
  decide

theorem apiC7_run : get_twap_last_5_business_days apiC7 864000000 5 5 =
    some (some (5 / 2, [(cA, 1), (cB, 4)])) := by
  simp only [get_twap_last_5_business_days, apiC7_loop, Option.map_some',
    assemble, apiC7_filter]
  rw [if_neg (by decide)]
  norm_num [twapOf, typical_price, cA, cB]

/-! ### Claims -/

/-- Claim C1: for every API whose pages contain only candles with timestamps
at or after the requested cursor and are strictly time-ascending, the
cursor strictly increases after each non-empty page (it becomes the last
returned timestamp plus one), every candle series assembled by the
pagination loop is strictly time-ascending — hence has no duplicate
timestamps and no candle re-fetched across a page boundary — and so is the
series returned by `get_twap_last_5_business_days`. -/
theorem twap_C1 (api : Int → List Candle) (now_ms : Int)
    (Hmono : ∀ s : Int, ∀ c ∈ api s, s ≤ c.timestamp)
    (Hasc : ∀ s : Int, (api s).Pairwise tsLt) :
    (∀ (s : Int) (c : Candle) (cs : List Candle),
        api s = c :: cs → s < lastTs c cs + 1) ∧
    (∀ (since : Int) (fuel : Nat) (l : List Candle),
        fetchLoop api now_ms since fuel = some l → l.Pairwise tsLt) ∧
    (∀ (d fuel : Nat) (t : ℚ) (rows : List (Candle × ℚ)),
        get_twap_last_5_business_days api now_ms d fuel =
          some (some (t, rows)) → (rows.map Prod.fst).Pairwise tsLt) := by
  refine ⟨?_, ?_, ?_⟩
  · intro s c cs hapi
    have h1 : s ≤ lastTs c cs :=
      Hmono s _ (hapi ▸ List.getLastD_mem_cons cs c)
    omega
  · intro since fuel l h
    exact (fetchLoop_sound api now_ms Hmono Hasc fuel since l h).2
  · intro d fuel t rows h
    obtain ⟨ohlcv, hfl, hne, ht, hrows⟩ :=
      get_twap_some api now_ms d fuel t rows h
    have hpw : ohlcv.Pairwise tsLt :=
      (fetchLoop_sound api now_ms Hmono Hasc fuel _ ohlcv hfl).2
    have hdf : (filterWindow now_ms d ohlcv).Pairwise tsLt :=
      List.Pairwise.sublist (List.filter_sublist _) hpw
    rw [hrows, List.map_map]
    have hid : (Prod.fst ∘ fun c : Candle => (c, typical_price c)) = id := rfl
    rw [hid, List.map_id]
    exact hdf

/-- Witness for C1 at a concrete honest API: the assembled series of the
three-candle run is strictly time-ascending. -/
theorem twap_C1_witness : List.Pairwise tsLt [c7, c8, c9] :=
  (twap_C1 apiThree 864000000 apiThree_mono apiThree_asc).2.1
    (sinceOf 864000000 3) 5 [c7, c8, c9] apiThree_loop

/-- Claim C2: for every bounded time range and every API whose pages contain
only candles with timestamps at or after the requested cursor, the
pagination loop terminates within a bounded number of pages — fuel
exceeding `(now_ms + 2 - since).toNat` suffices — and it stops as soon as a
request returns no candles, or as soon as the last returned candle's
timestamp exceeds `now_ms`. -/
theorem twap_C2 (api : Int → List Candle) (now_ms : Int)
    (Hmono : ∀ s : Int, ∀ c ∈ api s, s ≤ c.timestamp) :
    (∀ (since : Int) (fuel : Nat), (now_ms + 2 - since).toNat < fuel →
        (fetchLoop api now_ms since fuel).isSome) ∧
    (∀ (s : Int) (fuel : Nat), api s = [] →
        fetchLoop api now_ms s (fuel + 1) = some []) ∧
    (∀ (s : Int) (c : Candle) (cs : List Candle) (fuel : Nat),
        api s = c :: cs → now_ms < lastTs c cs →
        fetchLoop api now_ms s (fuel + 1) = some (c :: cs)) := by
  refine ⟨?_, ?_, ?_⟩
  · intro since fuel h
    exact fetchLoop_total api now_ms Hmono fuel since h
  · intro s fuel hapi
    rw [fetchLoop, hapi]
  · intro s c cs fuel hapi hlt
    rw [fetchLoop, hapi]
    dsimp only
    rw [if_pos hlt]

/-- Witness for C2: the concrete three-candle run terminates once the fuel
exceeds the page bound of its time range. -/
theorem twap_C2_witness :
    (fetchLoop apiThree 864000000 604800000 259200003).isSome :=
  (twap_C2 apiThree 864000000 apiThree_mono).1 604800000 259200003 (by decide)

/-- Claim C3: whenever `get_twap_last_5_business_days` produces a value, the
TWAP is the arithmetic mean of the typical prices `(high + low + close) / 3`
over the returned series with every candle weighted equally; a one-candle
series has TWAP `(h + l + c) / 3`, and the concrete three-candle run with
typical prices 10, 20, 30 yields 20. -/
theorem twap_C3 :
    (∀ (api : Int → List Candle) (now_ms : Int) (d fuel : Nat) (t : ℚ)
        (rows : List (Candle × ℚ)),
        get_twap_last_5_business_days api now_ms d fuel =
          some (some (t, rows)) →
        t = (rows.map (fun p => typical_price p.1)).sum /
          (rows.length : ℚ)) ∧
    (∀ ts : Int, ∀ o h l c v : ℚ,
        twapOf [⟨ts, o, h, l, c, v⟩] = (h + l + c) / 3) ∧
    get_twap_last_5_business_days apiThree 864000000 3 5 =
      some (some (20, [(c7, 10), (c8, 20), (c9, 30)])) := by
  refine ⟨?_, ?_, apiThree_run⟩
  · intro api now_ms d fuel t rows h
    obtain ⟨ohlcv, hfl, hne, ht, hrows⟩ :=
      get_twap_some api now_ms d fuel t rows h
    rw [ht, hrows, List.map_map, List.length_map]
    have hcomp : ((fun p : Candle × ℚ => typical_price p.1) ∘
        fun c : Candle => (c, typical_price c)) = typical_price := rfl
    rw [hcomp]
    rfl
  · intro ts o h l c v
    simp [twapOf, typical_price]

/-- Witness for C3: the general mean property applied to the concrete
three-candle run. -/
theorem twap_C3_witness :
    (20 : ℚ) = (([(c7, (10 : ℚ)), (c8, 20), (c9, 30)]).map
      (fun p => typical_price p.1)).sum /
      ((([(c7, (10 : ℚ)), (c8, 20), (c9, 30)]).length : ℚ)) :=
  twap_C3.1 apiThree 864000000 3 5 20 [(c7, 10), (c8, 20), (c9, 30)]
    apiThree_run

/-- Claim C4: whenever the filtered candle series is empty — in particular
when the API returns no candles at all — `get_twap_last_5_business_days`
returns the defined no-data result `(None, None)` (the inner `none`); in
this total model no exception and no division by zero can occur. -/
theorem twap_C4 :
    (∀ (api : Int → List Candle) (now_ms : Int) (d fuel : Nat)
        (ohlcv : List Candle),
        fetchLoop api now_ms (sinceOf now_ms d) fuel = some ohlcv →
        filterWindow now_ms d ohlcv = [] →
        get_twap_last_5_business_days api now_ms d fuel = some none) ∧
    (∀ (now_ms : Int) (d fuel : Nat),
        get_twap_last_5_business_days (fun _ => []) now_ms d (fuel + 1) =
          some none) := by
  constructor
  · intro api now_ms d fuel ohlcv hfl hdf
    exact get_twap_empty api now_ms d fuel ohlcv hfl hdf
  · intro now_ms d fuel
    refine get_twap_empty (fun _ => []) now_ms d (fuel + 1) [] ?_ rfl
    rw [fetchLoop]

/-- Witness for C4: a run whose only fetched candle is older than the
cutoff yields the no-data result. -/
theorem twap_C4_witness :
    get_twap_last_5_business_days apiOld 864000000 3 5 = some none :=
  twap_C4.1 apiOld 864000000 3 5 [cOld] apiOld_loop apiOld_filter

/-- Claim C5: an error raised by a page request is propagated unchanged by
`get_twapE` — in particular an error on the first page — it is never
swallowed and no candle series assembled from earlier pages is returned in
its place, and any error the loop reports was produced by the API. -/
theorem twap_C5 :
    (∀ (api : Int → Except Nat (List Candle)) (now_ms : Int) (d fuel e : Nat),
        api (sinceOf now_ms d) = Except.error e →
        get_twapE api now_ms d (fuel + 1) = some (Except.error e)) ∧
    (∀ (api : Int → Except Nat (List Candle)) (now_ms : Int) (d fuel e : Nat),
        fetchLoopE api now_ms (sinceOf now_ms d) fuel =
          some (Except.error e) →
        get_twapE api now_ms d fuel = some (Except.error e)) ∧
    (∀ (api : Int → Except Nat (List Candle)) (now_ms since : Int)
        (fuel e : Nat),
        fetchLoopE api now_ms since fuel = some (Except.error e) →
        ∃ s, api s = Except.error e) := by
  refine ⟨?_, ?_, ?_⟩
  · intro api now_ms d fuel e hapi
    unfold get_twapE
    rw [fetchLoopE, hapi]
    rfl
  · intro api now_ms d fuel e h
    unfold get_twapE
    rw [h]
    rfl
  · intro api now_ms since fuel e h
    exact fetchLoopE_error_api api now_ms fuel since e h

/-- Witness for C5: a connection error (code 42) on the first page of a
concrete run propagates to the caller. -/
theorem twap_C5_witness :
    get_twapE apiErr 864000000 3 5 = some (Except.error 42) :=
  twap_C5.1 apiErr 864000000 3 4 42 apiErr_first

/-- Claim C6: the cutoff is today's UTC date minus `days_to_fetch` calendar
days (no weekend or holiday exclusion), and the window filter keeps exactly
the fetched candles whose calendar date is at or after that cutoff. -/
theorem twap_C6 :
    (∀ (now_ms : Int) (d : Nat) (l : List Candle) (c : Candle),
        c ∈ filterWindow now_ms d l ↔
          c ∈ l ∧ todayOf now_ms - (d : Int) ≤ candleDate c) ∧
    (∀ (now_ms : Int) (d : Nat),
        cutoffOf now_ms d = Int.fdiv now_ms msPerDay - (d : Int)) := by
  constructor
  · intro now_ms d l c
    simp [filterWindow, List.mem_filter, cutoffOf]
  · intro now_ms d
    rfl

/-- Counterexample to C7 as stated: a run over an honest API (every candle
at or after the requested cursor, pages ascending) reaches the TWAP
computation with a series containing the candle `cB`, whose timestamp
864000001 exceeds the clock reading `now_ms = 864000000`, so the filtered
series is not wholly within `[now − lookback_days, now]`. -/
theorem twap_C7_cex :
    get_twap_last_5_business_days apiC7 864000000 5 5 =
      some (some (5 / 2, [(cA, 1), (cB, 4)])) ∧
    (864000000 : Int) < cB.timestamp :=
  ⟨apiC7_run, by decide⟩

/-- Claim C7 as amended: whenever `get_twap_last_5_business_days` reaches
the TWAP computation, the series passed to it is non-empty and every candle
in it has calendar date at or after the cutoff date (today minus
`lookback_days`); the code enforces no upper bound at `now_ms` and bounds
the lower end only at date granularity. -/
theorem twap_C7_amended :
    ∀ (api : Int → List Candle) (now_ms : Int) (d fuel : Nat) (t : ℚ)
      (rows : List (Candle × ℚ)),
      get_twap_last_5_business_days api now_ms d fuel =
        some (some (t, rows)) →
      rows ≠ [] ∧ ∀ p ∈ rows, cutoffOf now_ms d ≤ candleDate p.1 := by
  intro api now_ms d fuel t rows h
  obtain ⟨ohlcv, hfl, hne, ht, hrows⟩ :=
    get_twap_some api now_ms d fuel t rows h
  constructor
  · rw [hrows]
    intro hmapnil
    exact hne (List.map_eq_nil_iff.mp hmapnil)
  · intro p hp
    rw [hrows] at hp
    rcases List.mem_map.mp hp with ⟨c, hc, rfl⟩
    unfold filterWindow at hc
    have := List.of_mem_filter hc
    simpa using this

/-- Witness for the amended C7 at the concrete three-candle run. -/
theorem twap_C7_amended_witness :
    ([(c7, (10 : ℚ)), (c8, 20), (c9, 30)] : List (Candle × ℚ)) ≠ [] ∧
    ∀ p ∈ ([(c7, (10 : ℚ)), (c8, 20), (c9, 30)] : List (Candle × ℚ)),
      cutoffOf 864000000 3 ≤ candleDate p.1 :=
  twap_C7_amended apiThree 864000000 3 5 20 [(c7, 10), (c8, 20), (c9, 30)]
    apiThree_run

/-- Claim C8: the TWAP aggregation is a pure mean and therefore invariant
under any permutation of a non-empty input candle series. -/
theorem twap_C8 (l₁ l₂ : List Candle) (hp : l₁.Perm l₂) (hne : l₁ ≠ []) :
    twapOf l₁ = twapOf l₂ := by
  unfold twapOf
  rw [List.Perm.sum_eq (hp.map typical_price), hp.length_eq]

/-- Witness for C8: swapping two concrete candles leaves the TWAP
unchanged. -/
theorem twap_C8_witness : twapOf [c7, c8] = twapOf [c8, c7] :=
  twap_C8 [c7, c8] [c8, c7] (List.Perm.swap c8 c7 []) (by decide)

/-- Claim C9: whenever `get_twap_last_5_business_days` produces a result,
the returned series is exactly the filtered candle series with one added
`typical_price` column equal to `(high + low + close) / 3` per row; the
original candles of the filtered rows are returned unchanged. -/
theorem twap_C9 :
    ∀ (api : Int → List Candle) (now_ms : Int) (d fuel : Nat) (t : ℚ)
      (rows : List (Candle × ℚ)),
      get_twap_last_5_business_days api now_ms d fuel =
        some (some (t, rows)) →
      ∃ ohlcv, fetchLoop api now_ms (sinceOf now_ms d) fuel = some ohlcv ∧
        rows.map Prod.fst = filterWindow now_ms d ohlcv ∧
        ∀ p ∈ rows, p.2 = typical_price p.1 := by
  intro api now_ms d fuel t rows h
  obtain ⟨ohlcv, hfl, -, -, hrows⟩ :=
    get_twap_some api now_ms d fuel t rows h
  refine ⟨ohlcv, hfl, ?_, ?_⟩
  · rw [hrows, List.map_map]
    have hid : (Prod.fst ∘ fun c : Candle => (c, typical_price c)) = id := rfl
    rw [hid, List.map_id]
  · intro p hp
    rw [hrows] at hp
    rcases List.mem_map.mp hp with ⟨c, hc, rfl⟩
    rfl

/-- Witness for C9 at the concrete three-candle run. -/
theorem twap_C9_witness :
    ∃ ohlcv,
      fetchLoop apiThree 864000000 (sinceOf 864000000 3) 5 = some ohlcv ∧
      (([(c7, (10 : ℚ)), (c8, 20), (c9, 30)]).map Prod.fst) =
        filterWindow 864000000 3 ohlcv ∧
      ∀ p ∈ ([(c7, (10 : ℚ)), (c8, 20), (c9, 30)] : List (Candle × ℚ)),
        p.2 = typical_price p.1 :=
  twap_C9 apiThree 864000000 3 5 20 [(c7, 10), (c8, 20), (c9, 30)]
    apiThree_run

/-- Claim C10: `get_twap_last_5_business_days` is deterministic — two runs
with the same clock reading, the same window size, the same fuel and
pointwise-equal API response sequences return identical results; the output
depends on nothing else. -/
theorem twap_C10 (api₁ api₂ : Int → List Candle) (now_ms : Int)
    (d fuel : Nat) (h : ∀ s, api₁ s = api₂ s) :
    get_twap_last_5_business_days api₁ now_ms d fuel =
      get_twap_last_5_business_days api₂ now_ms d fuel := by
  have hfn : api₁ = api₂ := funext h
  rw [hfn]

/-- Witness for C10: two syntactically different but pointwise-equal APIs
give the same concrete result. -/
theorem twap_C10_witness :
    get_twap_last_5_business_days apiThree 864000000 3 5 =
      get_twap_last_5_business_days apiThreeCopy 864000000 3 5 :=
  twap_C10 apiThree apiThreeCopy 864000000 3 5 (fun _ => rfl)
